import Mathlib

/-!
Verification of the Mars Protocol red-bank accounting core.

This file gives a shallow embedding, in Lean 4, of the interest-accrual and
scaled-balance arithmetic of the `mars-red-bank` contract
(`contracts/mars-red-bank/src/interest_rates.rs`) and of the operation
handlers of the older `terra-mars-red-bank` contract
(`contracts/terra-mars-red-bank/src/contract.rs`), and proves properties of
those embeddings.

Modelling conventions:
* `Uint128` values are modelled as `Nat`; checked operations (which return
  `StdResult`/abort the transaction on overflow in the source) are modelled
  as `Option Nat`, where `none` stands for any aborted computation and the
  guard `chk` enforces the 128-bit bound.
* The fixed-point `Decimal` type (18 fractional digits, unsigned 128-bit
  numerator over the implicit denominator `10^18`) is modelled by its atomic
  numerator as a `Nat`.  Multiplication of an integer amount by a decimal
  truncates, exactly as `Uint128::multiply_ratio` does.
* The `mars-core` math package and the `terra-mars-red-bank`
  `interest_rates` helper module are not part of the provided sources; the
  definitions standing in for them are modelled from the specification
  (sections 4.1 and 4.2) and are marked `Modelled from the spec:` in their
  doc comments.
-/

namespace RedBank

/-- Largest value representable by `Uint128`. -/
def U128_MAX : Nat := 2 ^ 128 - 1

/-- Modelled from the spec: the implicit denominator of the fixed-point
`Decimal` type of the missing `mars-core` math package (18 fractional
digits). -/
def DECIMAL_FRACTIONAL : Nat := 10 ^ 18

/-- Scaling factor used to keep more precision during division /
multiplication by index (`interest_rates.rs`, `SCALING_FACTOR`). -/
def SCALING_FACTOR : Nat := 1000000

/-- Seconds per year used for linear interest (`interest_rates.rs`). -/
def SECONDS_PER_YEAR : Nat := 31536000

/-- Checked 128-bit arithmetic: a computed `Nat` is admitted only when it
fits `Uint128`; otherwise the whole computation aborts (`StdResult` error or
panic in the source). -/
def chk (x : Nat) : Option Nat :=
  if x ≤ U128_MAX then some x else none

/-- Ceiling division as implemented by the missing
`mars_core::math::uint128_checked_div_with_ceil`: divide, then add one when
there is a remainder.  Modelled from the spec: "divide ... with ceiling". -/
def divCeil (a b : Nat) : Nat :=
  a / b + (if a % b = 0 then 0 else 1)

/-- Modelled from the spec: `divide_uint128_by_decimal` of the missing
`mars-core` decimal module — multiply the integer by `10^18`, divide by the
decimal's numerator, truncating; checked. -/
def divide_uint128_by_decimal (a d : Nat) : Option Nat :=
  if d = 0 then none else chk (a * DECIMAL_FRACTIONAL / d)

/-- Modelled from the spec: `divide_uint128_by_decimal_and_ceil` of the
missing `mars-core` decimal module — same as `divide_uint128_by_decimal` but
rounding the quotient up. -/
def divide_uint128_by_decimal_and_ceil (a d : Nat) : Option Nat :=
  if d = 0 then none else chk (divCeil (a * DECIMAL_FRACTIONAL) d)

/-- Modelled from the spec: checked `uint128_checked_div_with_ceil` from the
missing `mars-core` math package. -/
def uint128_checked_div_with_ceil (a b : Nat) : Option Nat :=
  if b = 0 then none else some (divCeil a b)

/-- Modelled from the spec: truncating multiplication of a `Uint128` amount
by a `Decimal` (numerator `d`), `a * d / 10^18`, checked against the 128-bit
bound. -/
def mul_uint128_by_decimal (a d : Nat) : Option Nat :=
  chk (a * d / DECIMAL_FRACTIONAL)

/-- Modelled from the spec: `Decimal::from_ratio`, the fixed-point quotient
`a / b` truncated to 18 fractional digits, checked. -/
def ratio_to_decimal (a b : Nat) : Option Nat :=
  chk (a * DECIMAL_FRACTIONAL / b)

/-- Rounding policy selector of `interest_rates.rs`. -/
inductive ScalingOperation
  | Truncate
  | Ceil

/-- Embedding of `compute_scaled_amount` (`interest_rates.rs`, lines
200-211): multiply the amount by `SCALING_FACTOR` (checked), then divide by
the index with the requested rounding. -/
def compute_scaled_amount (amount index : Nat) (op : ScalingOperation) :
    Option Nat :=
  match chk (amount * SCALING_FACTOR) with
  | none => none
  | some scaled =>
      match op with
      | ScalingOperation.Truncate => divide_uint128_by_decimal scaled index
      | ScalingOperation.Ceil => divide_uint128_by_decimal_and_ceil scaled index

/-- Embedding of `compute_underlying_amount` (`interest_rates.rs`, lines
215-230): multiply the scaled amount by the index (truncating), then divide
by `SCALING_FACTOR` with the requested rounding. -/
def compute_underlying_amount (scaled_amount index : Nat)
    (op : ScalingOperation) : Option Nat :=
  match mul_uint128_by_decimal scaled_amount index with
  | none => none
  | some before_scaling_factor =>
      match op with
      | ScalingOperation.Truncate => some (before_scaling_factor / SCALING_FACTOR)
      | ScalingOperation.Ceil =>
          uint128_checked_div_with_ceil before_scaling_factor SCALING_FACTOR

theorem chk_eq_some {x y : Nat} (h : chk x = some y) : y = x ∧ x ≤ U128_MAX := by
  unfold chk at h
  by_cases hx : x ≤ U128_MAX
  · simp [hx] at h
    exact ⟨h.symm, hx⟩
  · simp [hx] at h

theorem le_mul_divCeil {a b : Nat} (hb : 0 < b) : a ≤ b * divCeil a b := by
  unfold divCeil
  have h1 : b * (a / b) + a % b = a := Nat.div_add_mod a b
  have h2 : a % b < b := Nat.mod_lt _ hb
  have h3 : b * (a / b + 1) = b * (a / b) + b := by ring
  by_cases h : a % b = 0 <;> simp [h] <;> omega

theorem div_le_divCeil (a b : Nat) : a / b ≤ divCeil a b := by
  unfold divCeil
  omega

theorem DECIMAL_FRACTIONAL_pos : 0 < DECIMAL_FRACTIONAL := by
  norm_num [DECIMAL_FRACTIONAL]

theorem SCALING_FACTOR_pos : 0 < SCALING_FACTOR := by
  norm_num [SCALING_FACTOR]

theorem compute_scaled_truncate_inv {amount index s : Nat}
    (h : compute_scaled_amount amount index ScalingOperation.Truncate = some s) :
    s = amount * SCALING_FACTOR * DECIMAL_FRACTIONAL / index := by
  unfold compute_scaled_amount at h
  cases hc : chk (amount * SCALING_FACTOR) with
  | none => rw [hc] at h; exact absurd h (by simp)
  | some scaled =>
      rw [hc] at h
      obtain ⟨rfl, -⟩ := chk_eq_some hc
      unfold divide_uint128_by_decimal at h
      by_cases hi : index = 0
      · simp [hi] at h
      · simp only [hi, if_false] at h
        exact (chk_eq_some h).1

theorem compute_scaled_ceil_inv {amount index s : Nat}
    (h : compute_scaled_amount amount index ScalingOperation.Ceil = some s) :
    index ≠ 0 ∧ s = divCeil (amount * SCALING_FACTOR * DECIMAL_FRACTIONAL) index := by
  unfold compute_scaled_amount at h
  cases hc : chk (amount * SCALING_FACTOR) with
  | none => rw [hc] at h; exact absurd h (by simp)
  | some scaled =>
      rw [hc] at h
      obtain ⟨rfl, -⟩ := chk_eq_some hc
      unfold divide_uint128_by_decimal_and_ceil at h
      by_cases hi : index = 0
      · simp [hi] at h
      · simp only [hi, if_false] at h
        exact ⟨hi, (chk_eq_some h).1⟩

theorem compute_underlying_truncate_inv {scaled index u : Nat}
    (h : compute_underlying_amount scaled index ScalingOperation.Truncate = some u) :
    u = scaled * index / DECIMAL_FRACTIONAL / SCALING_FACTOR := by
  unfold compute_underlying_amount mul_uint128_by_decimal at h
  cases hc : chk (scaled * index / DECIMAL_FRACTIONAL) with
  | none => rw [hc] at h; exact absurd h (by simp)
  | some b =>
      rw [hc] at h
      obtain ⟨rfl, -⟩ := chk_eq_some hc
      exact (Option.some_inj.mp h).symm

theorem compute_underlying_ceil_inv {scaled index u : Nat}
    (h : compute_underlying_amount scaled index ScalingOperation.Ceil = some u) :
    u = divCeil (scaled * index / DECIMAL_FRACTIONAL) SCALING_FACTOR := by
  unfold compute_underlying_amount mul_uint128_by_decimal at h
  cases hc : chk (scaled * index / DECIMAL_FRACTIONAL) with
  | none => rw [hc] at h; exact absurd h (by simp)
  | some b =>
      rw [hc] at h
      obtain ⟨rfl, -⟩ := chk_eq_some hc
      have h2 : uint128_checked_div_with_ceil
          (scaled * index / DECIMAL_FRACTIONAL) SCALING_FACTOR = some u := h
      unfold uint128_checked_div_with_ceil at h2
      have hs : SCALING_FACTOR ≠ 0 := Nat.pos_iff_ne_zero.mp SCALING_FACTOR_pos
      simp only [hs, if_false, Option.some_inj] at h2
      exact h2.symm

/-- Embedding of `calculate_applied_linear_interest_rate`
(`interest_rates.rs`, lines 103-113): the index is multiplied by
`1 + rate * (time_elapsed / SECONDS_PER_YEAR)`, every fixed-point operation
truncating to 18 fractional digits and checked against the 128-bit bound. -/
def calculate_applied_linear_interest_rate (index rate time_elapsed : Nat) :
    Option Nat :=
  match ratio_to_decimal time_elapsed SECONDS_PER_YEAR with
  | none => none
  | some ratio =>
      match chk (rate * ratio / DECIMAL_FRACTIONAL) with
      | none => none
      | some rate_factor =>
          match chk (DECIMAL_FRACTIONAL + rate_factor) with
          | none => none
          | some factor => chk (index * factor / DECIMAL_FRACTIONAL)

/-- The `Market` fields read or written by the interest-rate module.  The
remaining fields of the source struct (asset type, token address,
loan-to-value and liquidation parameters, flags, strategy) are not touched
by the functions embedded here. -/
structure Market where
  borrow_index : Nat
  liquidity_index : Nat
  borrow_rate : Nat
  liquidity_rate : Nat
  indexes_last_updated : Nat
  debt_total_scaled : Nat
  reserve_factor : Nat
  deriving DecidableEq

/-- Index-update step of `apply_accumulated_interests`
(`interest_rates.rs`, lines 41-60): if time has elapsed, each index whose
rate is positive accrues linear interest, and `indexes_last_updated` is set
to the current timestamp. -/
def market_update_indices (current_timestamp : Nat) (m : Market) :
    Option Market :=
  if m.indexes_last_updated < current_timestamp then
    let time_elapsed := current_timestamp - m.indexes_last_updated
    match (if 0 < m.borrow_rate then
            calculate_applied_linear_interest_rate m.borrow_index
              m.borrow_rate time_elapsed
          else some m.borrow_index) with
    | none => none
    | some bi =>
        match (if 0 < m.liquidity_rate then
                calculate_applied_linear_interest_rate m.liquidity_index
                  m.liquidity_rate time_elapsed
              else some m.liquidity_index) with
        | none => none
        | some li =>
            some { m with
                    borrow_index := bi
                    liquidity_index := li
                    indexes_last_updated := current_timestamp }
  else some m

/-- Embedding of `apply_accumulated_interests` (`interest_rates.rs`, lines
32-101).  The returned pair is the updated market together with the
protocol-reward mint amount (`some amount` when a mint message is added to
the response, `none` when no message is added).  The previous debt total is
computed at the pre-update borrow index, the new one at the post-update
borrow index, both with ceiling rounding. -/
def apply_accumulated_interests (current_timestamp : Nat) (m : Market) :
    Option (Market × Option Nat) :=
  match market_update_indices current_timestamp m with
  | none => none
  | some m2 =>
      match compute_underlying_amount m2.debt_total_scaled m.borrow_index
          ScalingOperation.Ceil with
      | none => none
      | some previous_debt_total =>
          match compute_underlying_amount m2.debt_total_scaled m2.borrow_index
              ScalingOperation.Ceil with
          | none => none
          | some new_debt_total =>
              match mul_uint128_by_decimal
                  (if previous_debt_total < new_debt_total then
                    new_debt_total - previous_debt_total
                  else 0)
                  m2.reserve_factor with
              | none => none
              | some accrued_protocol_rewards =>
                  if 0 < accrued_protocol_rewards then
                    match compute_scaled_amount accrued_protocol_rewards
                        m2.liquidity_index ScalingOperation.Truncate with
                    | none => none
                    | some mint_amount => some (m2, some mint_amount)
                  else some (m2, none)

/-- Embedding of `get_updated_borrow_index` (`interest_rates.rs`, lines
235-250): project the borrow index forward to `timestamp`; a timestamp in
the past silently returns the stored index. -/
def get_updated_borrow_index (m : Market) (timestamp : Nat) : Option Nat :=
  if m.indexes_last_updated < timestamp then
    if 0 < m.borrow_rate then
      calculate_applied_linear_interest_rate m.borrow_index m.borrow_rate
        (timestamp - m.indexes_last_updated)
    else some m.borrow_index
  else some m.borrow_index

/-- Embedding of `get_updated_liquidity_index` (`interest_rates.rs`, lines
255-276): project the liquidity index forward to `timestamp`; a timestamp
strictly before `indexes_last_updated` is an error. -/
def get_updated_liquidity_index (m : Market) (timestamp : Nat) : Option Nat :=
  if m.indexes_last_updated > timestamp then none
  else if m.indexes_last_updated < timestamp then
    if 0 < m.liquidity_rate then
      calculate_applied_linear_interest_rate m.liquidity_index
        m.liquidity_rate (timestamp - m.indexes_last_updated)
    else some m.liquidity_index
  else some m.liquidity_index

/-- Exact rational value of a fixed-point decimal (atoms over `10^18`). -/
def decimal_value (atoms : Nat) : ℚ :=
  (atoms : ℚ) / (DECIMAL_FRACTIONAL : ℚ)

/-- Stated from the specification's words, for comparison with the code:
the exact (real-arithmetic) linearly accrued index
`old_index * (1 + rate * elapsed / seconds_per_year)`. -/
def linear_interest_exact (index rate time_elapsed : Nat) : ℚ :=
  decimal_value index *
    (1 + decimal_value rate * (time_elapsed : ℚ) / (SECONDS_PER_YEAR : ℚ))

theorem calculate_applied_linear_interest_rate_inv {index rate e v : Nat}
    (h : calculate_applied_linear_interest_rate index rate e = some v) :
    ∃ ratio rate_factor,
      ratio = e * DECIMAL_FRACTIONAL / SECONDS_PER_YEAR ∧
      rate_factor = rate * ratio / DECIMAL_FRACTIONAL ∧
      v = index * (DECIMAL_FRACTIONAL + rate_factor) / DECIMAL_FRACTIONAL := by
  unfold calculate_applied_linear_interest_rate ratio_to_decimal at h
  split at h
  · exact absurd h (by simp)
  · rename_i ratio h1
    obtain ⟨rfl, -⟩ := chk_eq_some h1
    split at h
    · exact absurd h (by simp)
    · rename_i rate_factor h2
      obtain ⟨rfl, -⟩ := chk_eq_some h2
      split at h
      · exact absurd h (by simp)
      · rename_i factor h3
        obtain ⟨rfl, -⟩ := chk_eq_some h3
        exact ⟨_, _, rfl, rfl, (chk_eq_some h).1⟩

theorem calculate_applied_linear_interest_rate_mono {index rate e v : Nat}
    (h : calculate_applied_linear_interest_rate index rate e = some v) :
    index ≤ v := by
  obtain ⟨ratio, rate_factor, -, -, rfl⟩ :=
    calculate_applied_linear_interest_rate_inv h
  have h1 : index * DECIMAL_FRACTIONAL ≤
      index * (DECIMAL_FRACTIONAL + rate_factor) :=
    Nat.mul_le_mul_left _ (Nat.le_add_right _ _)
  have h2 : index * DECIMAL_FRACTIONAL / DECIMAL_FRACTIONAL ≤
      index * (DECIMAL_FRACTIONAL + rate_factor) / DECIMAL_FRACTIONAL :=
    Nat.div_le_div_right h1
  rwa [Nat.mul_div_cancel _ DECIMAL_FRACTIONAL_pos] at h2

theorem market_update_indices_inv {t : Nat} {m m2 : Market}
    (h : market_update_indices t m = some m2) :
    m.borrow_index ≤ m2.borrow_index ∧
    m.liquidity_index ≤ m2.liquidity_index ∧
    m.indexes_last_updated ≤ m2.indexes_last_updated ∧
    t ≤ m2.indexes_last_updated ∧
    m2.debt_total_scaled = m.debt_total_scaled ∧
    m2.borrow_rate = m.borrow_rate ∧
    m2.liquidity_rate = m.liquidity_rate ∧
    m2.reserve_factor = m.reserve_factor := by
  unfold market_update_indices at h
  by_cases ht : m.indexes_last_updated < t
  · simp only [ht, if_true] at h
    split at h
    · exact absurd h (by simp)
    · rename_i bi hb
      split at h
      · exact absurd h (by simp)
      · rename_i li hl
        obtain rfl := (Option.some_inj.mp h).symm
        have hbi : m.borrow_index ≤ bi := by
          by_cases hr : 0 < m.borrow_rate
          · rw [if_pos hr] at hb
            exact calculate_applied_linear_interest_rate_mono hb
          · rw [if_neg hr] at hb
            exact le_of_eq (Option.some_inj.mp hb)
        have hli : m.liquidity_index ≤ li := by
          by_cases hr : 0 < m.liquidity_rate
          · rw [if_pos hr] at hl
            exact calculate_applied_linear_interest_rate_mono hl
          · rw [if_neg hr] at hl
            exact le_of_eq (Option.some_inj.mp hl)
        exact ⟨hbi, hli, Nat.le_of_lt ht, Nat.le_refl t, rfl, rfl, rfl, rfl⟩
  · simp only [ht, if_false] at h
    obtain rfl := (Option.some_inj.mp h).symm
    exact ⟨Nat.le_refl _, Nat.le_refl _, Nat.le_refl _, Nat.le_of_not_lt ht,
      rfl, rfl, rfl, rfl⟩

theorem apply_accumulated_interests_inv {t : Nat} {m m2 : Market}
    {mint : Option Nat}
    (h : apply_accumulated_interests t m = some (m2, mint)) :
    market_update_indices t m = some m2 ∧
    ∃ x, compute_underlying_amount m2.debt_total_scaled m2.borrow_index
      ScalingOperation.Ceil = some x := by
  unfold apply_accumulated_interests at h
  split at h
  · exact absurd h (by simp)
  · rename_i m3 hu
    split at h
    · exact absurd h (by simp)
    · rename_i previous_debt_total hp
      split at h
      · exact absurd h (by simp)
      · rename_i new_debt_total hn
        split at h
        · exact absurd h (by simp)
        · rename_i accrued hr
          split at h
          · split at h
            · exact absurd h (by simp)
            · rename_i mint_amount hm
              have hpair := Option.some_inj.mp h
              have hm3 : m3 = m2 := congrArg Prod.fst hpair
              subst hm3
              exact ⟨hu, new_debt_total, hn⟩
          · have hpair := Option.some_inj.mp h
            have hm3 : m3 = m2 := congrArg Prod.fst hpair
            subst hm3
            exact ⟨hu, new_debt_total, hn⟩

theorem apply_accumulated_interests_noop {t : Nat} {m : Market} {x : Nat}
    (hupd : market_update_indices t m = some m)
    (hx : compute_underlying_amount m.debt_total_scaled m.borrow_index
      ScalingOperation.Ceil = some x) :
    apply_accumulated_interests t m = some (m, none) := by
  unfold apply_accumulated_interests
  rw [hupd]
  simp only [hx, lt_self_iff_false, if_false, mul_uint128_by_decimal,
    Nat.zero_mul, Nat.zero_div, chk]
  simp

end RedBank

/-- Claim C1: for every amount and every index at least one, descaling a
scaled liquidity amount with truncation returns at most the original amount,
and descaling a scaled debt amount with ceiling rounding returns at least
the original amount. -/
theorem scale_descale_rounding_direction :
    (∀ amount index s u, RedBank.DECIMAL_FRACTIONAL ≤ index →
      RedBank.compute_scaled_amount amount index
        RedBank.ScalingOperation.Truncate = some s →
      RedBank.compute_underlying_amount s index
        RedBank.ScalingOperation.Truncate = some u →
      u ≤ amount) ∧
    (∀ amount index s u, RedBank.DECIMAL_FRACTIONAL ≤ index →
      RedBank.compute_scaled_amount amount index
        RedBank.ScalingOperation.Ceil = some s →
      RedBank.compute_underlying_amount s index
        RedBank.ScalingOperation.Ceil = some u →
      amount ≤ u) := by
  constructor
  · intro amount index s u _ hs hu
    obtain rfl := RedBank.compute_scaled_truncate_inv hs
    obtain rfl := RedBank.compute_underlying_truncate_inv hu
    have h1 : amount * RedBank.SCALING_FACTOR * RedBank.DECIMAL_FRACTIONAL /
        index * index ≤ amount * RedBank.SCALING_FACTOR * RedBank.DECIMAL_FRACTIONAL :=
      Nat.div_mul_le_self _ _
    have h2 : amount * RedBank.SCALING_FACTOR * RedBank.DECIMAL_FRACTIONAL /
        index * index / RedBank.DECIMAL_FRACTIONAL ≤
        amount * RedBank.SCALING_FACTOR * RedBank.DECIMAL_FRACTIONAL /
        RedBank.DECIMAL_FRACTIONAL := Nat.div_le_div_right h1
    rw [Nat.mul_div_cancel _ RedBank.DECIMAL_FRACTIONAL_pos] at h2
    have h3 : amount * RedBank.SCALING_FACTOR * RedBank.DECIMAL_FRACTIONAL /
        index * index / RedBank.DECIMAL_FRACTIONAL / RedBank.SCALING_FACTOR ≤
        amount * RedBank.SCALING_FACTOR / RedBank.SCALING_FACTOR :=
      Nat.div_le_div_right h2
    rw [Nat.mul_div_cancel _ RedBank.SCALING_FACTOR_pos] at h3
    exact h3
  · intro amount index s u hidx hs hu
    have hipos : 0 < index := lt_of_lt_of_le RedBank.DECIMAL_FRACTIONAL_pos hidx
    obtain ⟨-, rfl⟩ := RedBank.compute_scaled_ceil_inv hs
    obtain rfl := RedBank.compute_underlying_ceil_inv hu
    set s := RedBank.divCeil
      (amount * RedBank.SCALING_FACTOR * RedBank.DECIMAL_FRACTIONAL) index with hsdef
    have h1 : amount * RedBank.SCALING_FACTOR * RedBank.DECIMAL_FRACTIONAL ≤
        index * s := RedBank.le_mul_divCeil hipos
    have h2 : amount * RedBank.SCALING_FACTOR ≤ s * index / RedBank.DECIMAL_FRACTIONAL := by
      rw [Nat.le_div_iff_mul_le RedBank.DECIMAL_FRACTIONAL_pos]
      calc amount * RedBank.SCALING_FACTOR * RedBank.DECIMAL_FRACTIONAL ≤ index * s := h1
      _ = s * index := Nat.mul_comm _ _
    have h3 : amount ≤ s * index / RedBank.DECIMAL_FRACTIONAL / RedBank.SCALING_FACTOR := by
      have h4 : amount * RedBank.SCALING_FACTOR / RedBank.SCALING_FACTOR ≤
          s * index / RedBank.DECIMAL_FRACTIONAL / RedBank.SCALING_FACTOR :=
        Nat.div_le_div_right h2
      rwa [Nat.mul_div_cancel _ RedBank.SCALING_FACTOR_pos] at h4
    exact le_trans h3 (RedBank.div_le_divCeil _ _)

/-- Witness for claim C1, at the values of the repository's own
`test_liquidity_and_debt_rounding` test: amount `100_000_000_000` at index
`3.0`. -/
theorem scale_descale_rounding_direction_witness :
    RedBank.DECIMAL_FRACTIONAL ≤ 3 * 10 ^ 18 ∧
    RedBank.compute_scaled_amount 100000000000 (3 * 10 ^ 18)
      RedBank.ScalingOperation.Truncate = some 33333333333333333 ∧
    RedBank.compute_underlying_amount 33333333333333333 (3 * 10 ^ 18)
      RedBank.ScalingOperation.Truncate = some 99999999999 ∧
    99999999999 ≤ 100000000000 ∧
    RedBank.compute_scaled_amount 100000000000 (3 * 10 ^ 18)
      RedBank.ScalingOperation.Ceil = some 33333333333333334 ∧
    RedBank.compute_underlying_amount 33333333333333334 (3 * 10 ^ 18)
      RedBank.ScalingOperation.Ceil = some 100000000001 ∧
    100000000000 ≤ 100000000001 := by
  refine ⟨by decide, by decide, by decide, ?_, by decide, by decide, by decide⟩
  exact scale_descale_rounding_direction.1 100000000000 (3 * 10 ^ 18)
    33333333333333333 99999999999 (by decide) (by decide) (by decide)

/-- Claim C2 (counterexample): the claim that
`calculate_applied_linear_interest_rate` returns exactly
`old_index * (1 + rate * elapsed / seconds_per_year)` fails at
index `1.0`, rate `10^-18` (one atom, nonzero) and one elapsed second:
the code returns exactly `1.0`, while the exact formula value is strictly
larger. -/
theorem linear_interest_not_exact_counterexample :
    RedBank.calculate_applied_linear_interest_rate (10 ^ 18) 1 1 =
      some (10 ^ 18) ∧
    RedBank.decimal_value (10 ^ 18) ≠
      RedBank.linear_interest_exact (10 ^ 18) 1 1 := by
  refine ⟨by decide, ?_⟩
  norm_num [RedBank.decimal_value, RedBank.linear_interest_exact,
    RedBank.DECIMAL_FRACTIONAL, RedBank.SECONDS_PER_YEAR]

/-- Claim C2 (amended): for every index, rate and elapsed time, the value
returned by `calculate_applied_linear_interest_rate` is at most the exact
`old_index * (1 + rate * elapsed / seconds_per_year)` (each fixed-point step
truncates), and on the specification's instance — index `1.0`, rate `0.2`,
elapsed `15,768,000` seconds — it returns exactly `1.1`. -/
theorem linear_interest_truncates_and_half_year_exact :
    (∀ index rate time_elapsed v,
      RedBank.calculate_applied_linear_interest_rate index rate time_elapsed =
        some v →
      RedBank.decimal_value v ≤
        RedBank.linear_interest_exact index rate time_elapsed) ∧
    RedBank.calculate_applied_linear_interest_rate (10 ^ 18) (2 * 10 ^ 17)
      15768000 = some (11 * 10 ^ 17) := by
  constructor
  · intro i r e v h
    obtain ⟨ratio, rate_factor, rfl, rfl, rfl⟩ :=
      RedBank.calculate_applied_linear_interest_rate_inv h
    have hD : (0 : ℚ) < (RedBank.DECIMAL_FRACTIONAL : ℚ) := by
      norm_num [RedBank.DECIMAL_FRACTIONAL]
    have hS : (0 : ℚ) < (RedBank.SECONDS_PER_YEAR : ℚ) := by
      norm_num [RedBank.SECONDS_PER_YEAR]
    set D := RedBank.DECIMAL_FRACTIONAL with hDdef
    set S := RedBank.SECONDS_PER_YEAR with hSdef
    have hq : ((e * D / S : ℕ) : ℚ) ≤ (e : ℚ) * (D : ℚ) / (S : ℚ) := by
      calc ((e * D / S : ℕ) : ℚ) ≤ ((e * D : ℕ) : ℚ) / (S : ℚ) :=
            Nat.cast_div_le
      _ = (e : ℚ) * (D : ℚ) / (S : ℚ) := by push_cast; ring
    have hrf : ((r * (e * D / S) / D : ℕ) : ℚ) ≤
        (r : ℚ) * ((e : ℚ) * (D : ℚ) / (S : ℚ)) / (D : ℚ) := by
      calc ((r * (e * D / S) / D : ℕ) : ℚ) ≤
            ((r * (e * D / S) : ℕ) : ℚ) / (D : ℚ) := Nat.cast_div_le
      _ = (r : ℚ) * ((e * D / S : ℕ) : ℚ) / (D : ℚ) := by push_cast; ring
      _ ≤ (r : ℚ) * ((e : ℚ) * (D : ℚ) / (S : ℚ)) / (D : ℚ) := by gcongr
    have hv : RedBank.decimal_value (i * (D + r * (e * D / S) / D) / D) ≤
        (i : ℚ) * ((D : ℚ) + (r : ℚ) * ((e : ℚ) * (D : ℚ) / (S : ℚ)) /
          (D : ℚ)) / (D : ℚ) / (D : ℚ) := by
      unfold RedBank.decimal_value
      rw [← hDdef]
      have h1 : ((i * (D + r * (e * D / S) / D) / D : ℕ) : ℚ) ≤
          ((i * (D + r * (e * D / S) / D) : ℕ) : ℚ) / (D : ℚ) :=
        Nat.cast_div_le
      have h2 : ((i * (D + r * (e * D / S) / D) : ℕ) : ℚ) =
          (i : ℚ) * ((D : ℚ) + ((r * (e * D / S) / D : ℕ) : ℚ)) := by
        push_cast
        ring
      have h3 : (i : ℚ) * ((D : ℚ) + ((r * (e * D / S) / D : ℕ) : ℚ)) ≤
          (i : ℚ) * ((D : ℚ) + (r : ℚ) *
            ((e : ℚ) * (D : ℚ) / (S : ℚ)) / (D : ℚ)) := by gcongr
      calc ((i * (D + r * (e * D / S) / D) / D : ℕ) : ℚ) / (D : ℚ) ≤
            ((i * (D + r * (e * D / S) / D) : ℕ) : ℚ) / (D : ℚ) / (D : ℚ) := by
              gcongr
      _ = (i : ℚ) * ((D : ℚ) + ((r * (e * D / S) / D : ℕ) : ℚ)) /
            (D : ℚ) / (D : ℚ) := by rw [h2]
      _ ≤ (i : ℚ) * ((D : ℚ) + (r : ℚ) * ((e : ℚ) * (D : ℚ) / (S : ℚ)) /
            (D : ℚ)) / (D : ℚ) / (D : ℚ) := by gcongr
    refine le_trans hv (le_of_eq ?_)
    unfold RedBank.linear_interest_exact RedBank.decimal_value
    rw [← hDdef, ← hSdef]
    have hDne : (D : ℚ) ≠ 0 := ne_of_gt hD
    have hSne : (S : ℚ) ≠ 0 := ne_of_gt hS
    field_simp
    ring
  · decide

/-- Witness for the amended claim C2: the upper bound instantiated at the
specification's half-year instance. -/
theorem linear_interest_truncates_witness :
    RedBank.calculate_applied_linear_interest_rate (10 ^ 18) (2 * 10 ^ 17)
      15768000 = some (11 * 10 ^ 17) ∧
    RedBank.decimal_value (11 * 10 ^ 17) ≤
      RedBank.linear_interest_exact (10 ^ 18) (2 * 10 ^ 17) 15768000 :=
  ⟨by decide,
    linear_interest_truncates_and_half_year_exact.1 (10 ^ 18) (2 * 10 ^ 17)
      15768000 (11 * 10 ^ 17) (by decide)⟩

/-- Claim C3: every successful accrual call leaves the liquidity index, the
borrow index and `indexes_last_updated` at values no smaller than before the
call (rates are unsigned); applied to each call of a sequence this gives the
claimed monotonicity along every sequence of accrual calls. -/
theorem accrual_index_monotonicity :
    ∀ (t : Nat) (m m2 : RedBank.Market) (mint : Option Nat),
      RedBank.apply_accumulated_interests t m = some (m2, mint) →
      m.borrow_index ≤ m2.borrow_index ∧
      m.liquidity_index ≤ m2.liquidity_index ∧
      m.indexes_last_updated ≤ m2.indexes_last_updated := by
  intro t m m2 mint h
  obtain ⟨hu, -⟩ := RedBank.apply_accumulated_interests_inv h
  obtain ⟨h1, h2, h3, -⟩ := RedBank.market_update_indices_inv hu
  exact ⟨h1, h2, h3⟩

/-- Witness for claim C3: a market with both rates at 10% accrued over one
year from timestamp 0. -/
theorem accrual_index_monotonicity_witness :
    RedBank.apply_accumulated_interests 31536000
      ⟨10 ^ 18, 10 ^ 18, 10 ^ 17, 10 ^ 17, 0, 10 ^ 6, 0⟩ =
      some (⟨11 * 10 ^ 17, 11 * 10 ^ 17, 10 ^ 17, 10 ^ 17, 31536000,
        10 ^ 6, 0⟩, none) ∧
    ((10 ^ 18 : Nat) ≤ 11 * 10 ^ 17 ∧ (10 ^ 18 : Nat) ≤ 11 * 10 ^ 17 ∧
      (0 : Nat) ≤ 31536000) :=
  ⟨by decide,
    accrual_index_monotonicity 31536000
      ⟨10 ^ 18, 10 ^ 18, 10 ^ 17, 10 ^ 17, 0, 10 ^ 6, 0⟩
      ⟨11 * 10 ^ 17, 11 * 10 ^ 17, 10 ^ 17, 10 ^ 17, 31536000, 10 ^ 6, 0⟩
      none (by decide)⟩

/-- Claim C4: after any successful accrual call, calling
`apply_accumulated_interests` again with the same current timestamp is a
no-op: it succeeds, returns the market completely unchanged (indices, rates
and `indexes_last_updated` included), and adds no protocol-reward mint
message to the response. -/
theorem accrual_idempotent :
    ∀ (t : Nat) (m m2 : RedBank.Market) (mint : Option Nat),
      RedBank.apply_accumulated_interests t m = some (m2, mint) →
      RedBank.apply_accumulated_interests t m2 = some (m2, none) := by
  intro t m m2 mint h
  obtain ⟨hu, x, hx⟩ := RedBank.apply_accumulated_interests_inv h
  obtain ⟨-, -, -, ht, -⟩ := RedBank.market_update_indices_inv hu
  have hupd : RedBank.market_update_indices t m2 = some m2 := by
    unfold RedBank.market_update_indices
    rw [if_neg (Nat.not_lt.mpr ht)]
  exact RedBank.apply_accumulated_interests_noop hupd hx

/-- Witness for claim C4: the market of the C3 witness, accrued twice at the
same timestamp. -/
theorem accrual_idempotent_witness :
    RedBank.apply_accumulated_interests 31536000
      ⟨10 ^ 18, 10 ^ 18, 10 ^ 17, 10 ^ 17, 0, 10 ^ 6, 0⟩ =
      some (⟨11 * 10 ^ 17, 11 * 10 ^ 17, 10 ^ 17, 10 ^ 17, 31536000,
        10 ^ 6, 0⟩, none) ∧
    RedBank.apply_accumulated_interests 31536000
      ⟨11 * 10 ^ 17, 11 * 10 ^ 17, 10 ^ 17, 10 ^ 17, 31536000, 10 ^ 6, 0⟩ =
      some (⟨11 * 10 ^ 17, 11 * 10 ^ 17, 10 ^ 17, 10 ^ 17, 31536000,
        10 ^ 6, 0⟩, none) :=
  ⟨by decide,
    accrual_idempotent 31536000
      ⟨10 ^ 18, 10 ^ 18, 10 ^ 17, 10 ^ 17, 0, 10 ^ 6, 0⟩
      ⟨11 * 10 ^ 17, 11 * 10 ^ 17, 10 ^ 17, 10 ^ 17, 31536000, 10 ^ 6, 0⟩
      none (by decide)⟩

/-- Claim C10: for a query timestamp strictly earlier than the market's
`indexes_last_updated`, `get_updated_liquidity_index` returns an error
while `get_updated_borrow_index` silently returns the stored borrow index —
the two projections treat a stale timestamp asymmetrically. -/
theorem stale_timestamp_index_asymmetry :
    ∀ (m : RedBank.Market) (timestamp : Nat),
      timestamp < m.indexes_last_updated →
      RedBank.get_updated_liquidity_index m timestamp = none ∧
      RedBank.get_updated_borrow_index m timestamp = some m.borrow_index := by
  intro m ts h
  constructor
  · unfold RedBank.get_updated_liquidity_index
    rw [if_pos h]
  · unfold RedBank.get_updated_borrow_index
    rw [if_neg (by omega)]

/-- Witness for claim C10: a market last updated at time 100, queried at
time 5. -/
theorem stale_timestamp_index_asymmetry_witness :
    (5 : Nat) < 100 ∧
    RedBank.get_updated_liquidity_index
      ⟨10 ^ 18, 10 ^ 18, 10 ^ 17, 10 ^ 17, 100, 0, 0⟩ 5 = none ∧
    RedBank.get_updated_borrow_index
      ⟨10 ^ 18, 10 ^ 18, 10 ^ 17, 10 ^ 17, 100, 0, 0⟩ 5 = some (10 ^ 18) :=
  ⟨by decide,
    stale_timestamp_index_asymmetry
      ⟨10 ^ 18, 10 ^ 18, 10 ^ 17, 10 ^ 17, 100, 0, 0⟩ 5 (by decide)⟩

namespace Terra

/-- Implicit denominator of the `cosmwasm_std` 0.16 `Decimal` type used by
`terra-mars-red-bank` (18 fractional digits).

The `terra-mars-red-bank` contract uses `cosmwasm_std` `Uint128`
arithmetic, which panics on overflow and thereby aborts the whole
transaction with no state change; the embedding below uses unbounded
naturals, so its theorems describe the non-aborting executions. -/
def DECIMAL_FRACTIONAL : Nat := 10 ^ 18

/-- Modelled from the spec: the precision factor of the scaled-balance
codec of the missing `terra-mars-red-bank` `interest_rates` module
(section 4.2, "fixed constant ... e.g. 10^6"). -/
def SCALING_FACTOR : Nat := 1000000

/-- Truncating multiplication of a `Uint128` amount by a `Decimal` with
numerator `d`, as `Uint128::multiply_ratio` computes it. -/
def mul_uint128_by_decimal (a d : Nat) : Nat :=
  a * d / DECIMAL_FRACTIONAL

/-- The numerator of `Decimal::from_ratio(a, b)`: the fixed-point quotient
truncated to 18 fractional digits. -/
def decimal_quotient (a b : Nat) : Nat :=
  a * DECIMAL_FRACTIONAL / b

/-- Modelled from the spec: `mars::math::reverse_decimal`, the fixed-point
reciprocal `1 / d` of a decimal with numerator `d`, truncated to 18
fractional digits. -/
def reverse_decimal (d : Nat) : Nat :=
  DECIMAL_FRACTIONAL * DECIMAL_FRACTIONAL / d

/-- Modelled from the spec: `get_scaled_amount` of the missing
`terra-mars-red-bank` `interest_rates` module — multiply the amount by the
precision factor, then divide by the index, truncating (section 4.2). -/
def get_scaled_amount (amount index : Nat) : Nat :=
  amount * SCALING_FACTOR * DECIMAL_FRACTIONAL / index

/-- Modelled from the spec: `get_descaled_amount` of the missing
`terra-mars-red-bank` `interest_rates` module — multiply the scaled amount
by the index, then divide by the precision factor, truncating
(section 4.2). -/
def get_descaled_amount (amount_scaled index : Nat) : Nat :=
  amount_scaled * index / DECIMAL_FRACTIONAL / SCALING_FACTOR

/-- Embedding of `liquidation_compute_amounts` (`contract.rs`, lines
1429-1472).  Returns `(debt_amount_to_repay, collateral_amount_to_liquidate,
refund_amount)`.  Every fixed-point multiplication truncates to whole token
units, exactly as the chained `Uint128 * Decimal` products of the source
do. -/
def liquidation_compute_amounts (collateral_price debt_price close_factor
    user_collateral_balance liquidation_bonus user_debt_asset_total_debt
    sent_debt_asset_amount : Nat) : Nat × Nat × Nat :=
  let max_repayable_debt :=
    mul_uint128_by_decimal user_debt_asset_total_debt close_factor
  let debt_amount_to_repay :=
    if max_repayable_debt < sent_debt_asset_amount then max_repayable_debt
    else sent_debt_asset_amount
  let debt_amount_to_repay_in_uusd :=
    mul_uint128_by_decimal debt_amount_to_repay debt_price
  let collateral_amount_to_liquidate_in_uusd :=
    mul_uint128_by_decimal debt_amount_to_repay_in_uusd
      (DECIMAL_FRACTIONAL + liquidation_bonus)
  let collateral_amount_to_liquidate :=
    mul_uint128_by_decimal collateral_amount_to_liquidate_in_uusd
      (reverse_decimal collateral_price)
  if user_collateral_balance < collateral_amount_to_liquidate then
    (mul_uint128_by_decimal
      (mul_uint128_by_decimal
        (mul_uint128_by_decimal user_collateral_balance collateral_price)
        (reverse_decimal debt_price))
      (reverse_decimal (DECIMAL_FRACTIONAL + liquidation_bonus)),
     user_collateral_balance,
     sent_debt_asset_amount -
      mul_uint128_by_decimal
        (mul_uint128_by_decimal
          (mul_uint128_by_decimal user_collateral_balance collateral_price)
          (reverse_decimal debt_price))
        (reverse_decimal (DECIMAL_FRACTIONAL + liquidation_bonus)))
  else
    (debt_amount_to_repay, collateral_amount_to_liquidate,
     sent_debt_asset_amount - debt_amount_to_repay)

/-- The initial (pre-clamp) debt to repay of the liquidation-amount
computation: the minimum of the sent amount and
`close_factor * total_debt`. -/
def liquidation_initial_repay (close_factor total_debt sent : Nat) : Nat :=
  min sent (mul_uint128_by_decimal total_debt close_factor)

/-- The initial (pre-clamp) collateral to liquidate:
`repay * debt_price * (1 + liquidation_bonus) / collateral_price` in
truncating fixed point. -/
def liquidation_initial_collateral (collateral_price debt_price
    liquidation_bonus repay : Nat) : Nat :=
  mul_uint128_by_decimal
    (mul_uint128_by_decimal
      (mul_uint128_by_decimal repay debt_price)
      (DECIMAL_FRACTIONAL + liquidation_bonus))
    (reverse_decimal collateral_price)

/-- The clamped-branch debt to repay:
`balance * collateral_price / (debt_price * (1 + liquidation_bonus))` in
truncating fixed point. -/
def liquidation_clamped_repay (collateral_price debt_price
    liquidation_bonus balance : Nat) : Nat :=
  mul_uint128_by_decimal
    (mul_uint128_by_decimal
      (mul_uint128_by_decimal balance collateral_price)
      (reverse_decimal debt_price))
    (reverse_decimal (DECIMAL_FRACTIONAL + liquidation_bonus))

theorem terra_decimal_fractional_pos : 0 < DECIMAL_FRACTIONAL := by
  norm_num [DECIMAL_FRACTIONAL]

theorem mul_reverse_div_le (x y : Nat) :
    mul_uint128_by_decimal x (reverse_decimal y) ≤
      x * DECIMAL_FRACTIONAL / y := by
  unfold mul_uint128_by_decimal reverse_decimal
  have hD : 0 < DECIMAL_FRACTIONAL := terra_decimal_fractional_pos
  calc x * (DECIMAL_FRACTIONAL * DECIMAL_FRACTIONAL / y) / DECIMAL_FRACTIONAL ≤
        x * (DECIMAL_FRACTIONAL * DECIMAL_FRACTIONAL) / y / DECIMAL_FRACTIONAL :=
        Nat.div_le_div_right (Nat.mul_div_le_mul_div_assoc _ _ _)
  _ = x * (DECIMAL_FRACTIONAL * DECIMAL_FRACTIONAL) /
        (y * DECIMAL_FRACTIONAL) := Nat.div_div_eq_div_mul _ _ _
  _ = x * DECIMAL_FRACTIONAL * DECIMAL_FRACTIONAL /
        (y * DECIMAL_FRACTIONAL) := by rw [Nat.mul_assoc]
  _ = x * DECIMAL_FRACTIONAL / y := Nat.mul_div_mul_right _ _ hD

theorem pred_mul_div {c d : Nat} (hc : 1 ≤ c) (hd : 1 ≤ d) :
    (c * d - 1) / d = c - 1 := by
  have h1 : c * d - 1 = (d - 1) + (c - 1) * d := by
    have h2 : c * d = d + (c - 1) * d := by
      have h3 : c = 1 + (c - 1) := by omega
      calc c * d = (1 + (c - 1)) * d := by rw [← h3]
      _ = d + (c - 1) * d := by ring
    omega
  rw [h1, Nat.add_mul_div_right _ _ (by omega : 0 < d)]
  have h4 : (d - 1) / d = 0 := Nat.div_eq_of_lt (by omega)
  omega

end Terra

namespace Terra

theorem div_chain_le {D : Nat} (hD : 0 < D) (x y : Nat) :
    x * (D * D / y) / D ≤ x * D / y := by
  calc x * (D * D / y) / D ≤ x * (D * D) / y / D :=
        Nat.div_le_div_right (Nat.mul_div_le_mul_div_assoc _ _ _)
  _ = x * (D * D) / (y * D) := Nat.div_div_eq_div_mul _ _ _
  _ = x * D * D / (y * D) := by rw [Nat.mul_assoc]
  _ = x * D / y := Nat.mul_div_mul_right _ _ hD

theorem clamped_chain {D vc vd vb1 B r0 : Nat} (hD : 0 < D) (hvc : 0 < vc)
    (hvd : 0 < vd) (hvb1 : 0 < vb1)
    (hclamp : B < r0 * vd / D * vb1 / D * (D * D / vc) / D) :
    B * vc / D * (D * D / vd) / D * (D * D / vb1) / D < r0 := by
  set C0 := r0 * vd / D * vb1 / D with hC0
  have hC0pos : 1 ≤ C0 := by
    rcases Nat.eq_zero_or_pos C0 with h0 | h
    · rw [h0] at hclamp
      simp at hclamp
    · exact h
  have hA : C0 * (D * D / vc) / D ≤ C0 * D / vc := div_chain_le hD _ _
  have hBlt : B < C0 * D / vc := lt_of_lt_of_le hclamp hA
  have hBvc : (B + 1) * vc ≤ C0 * D :=
    (Nat.le_div_iff_mul_le hvc).mp (Nat.succ_le_of_lt hBlt)
  have hexp : (B + 1) * vc = B * vc + vc := by ring
  have hsub : B * vc ≤ C0 * D - vc := by omega
  have ha1 : B * vc / D ≤ C0 - 1 := by
    have h2 : B * vc / D ≤ (C0 * D - vc) / D := Nat.div_le_div_right hsub
    have h3 : (C0 * D - vc) / D ≤ (C0 * D - 1) / D :=
      Nat.div_le_div_right (by omega)
    have h4 : (C0 * D - 1) / D = C0 - 1 := pred_mul_div hC0pos hD
    omega
  have hD1 : B * vc / D * (D * D / vd) / D ≤ B * vc / D * D / vd :=
    div_chain_le hD _ _
  have hD2 : B * vc / D * (D * D / vd) / D * (D * D / vb1) / D ≤
      B * vc / D * (D * D / vd) / D * D / vb1 := div_chain_le hD _ _
  have hD3 : B * vc / D * (D * D / vd) / D * D / vb1 ≤
      B * vc / D * D / vd * D / vb1 :=
    Nat.div_le_div_right (Nat.mul_le_mul_right _ hD1)
  have hD4 : B * vc / D * D / vd * D / vb1 ≤
      B * vc / D * D * D / (vd * vb1) := by
    have h5 : B * vc / D * D / vd * D ≤ B * vc / D * D * D / vd := by
      calc B * vc / D * D / vd * D = D * (B * vc / D * D / vd) := by ring
      _ ≤ D * (B * vc / D * D) / vd := Nat.mul_div_le_mul_div_assoc _ _ _
      _ = B * vc / D * D * D / vd := by rw [Nat.mul_comm D (B * vc / D * D)]
    calc B * vc / D * D / vd * D / vb1 ≤ B * vc / D * D * D / vd / vb1 :=
          Nat.div_le_div_right h5
    _ = B * vc / D * D * D / (vd * vb1) := Nat.div_div_eq_div_mul _ _ _
  have hstep : B * vc / D * D * D / (vd * vb1) ≤
      (C0 - 1) * D * D / (vd * vb1) := by
    apply Nat.div_le_div_right
    exact Nat.mul_le_mul_right _ (Nat.mul_le_mul_right _ ha1)
  have hE : C0 ≤ r0 * (vd * vb1) / (D * D) := by
    rw [hC0]
    have h6 : r0 * vd / D * vb1 ≤ r0 * vd * vb1 / D := by
      calc r0 * vd / D * vb1 = vb1 * (r0 * vd / D) := by ring
      _ ≤ vb1 * (r0 * vd) / D := Nat.mul_div_le_mul_div_assoc _ _ _
      _ = r0 * vd * vb1 / D := by rw [Nat.mul_comm vb1 (r0 * vd)]
    calc r0 * vd / D * vb1 / D ≤ r0 * vd * vb1 / D / D :=
          Nat.div_le_div_right h6
    _ = r0 * vd * vb1 / (D * D) := Nat.div_div_eq_div_mul _ _ _
    _ = r0 * (vd * vb1) / (D * D) := by rw [Nat.mul_assoc]
  have hKpos : 0 < vd * vb1 := Nat.mul_pos hvd hvb1
  have hEpos : 0 < D * D := Nat.mul_pos hD hD
  have hq : 1 ≤ r0 * (vd * vb1) / (D * D) := le_trans hC0pos hE
  have hr0pos : 1 ≤ r0 := by
    rcases Nat.eq_zero_or_pos r0 with h0 | h
    · rw [h0] at hq
      simp at hq
    · exact h
  have hqmul : r0 * (vd * vb1) / (D * D) * (D * D) ≤ r0 * (vd * vb1) :=
    Nat.div_mul_le_self _ _
  have h1 : (C0 - 1) * (D * D) ≤ r0 * (vd * vb1) - (D * D) := by
    have h7 : (C0 - 1) * (D * D) ≤
        (r0 * (vd * vb1) / (D * D) - 1) * (D * D) :=
      Nat.mul_le_mul_right _ (by omega)
    have h8 : (r0 * (vd * vb1) / (D * D) - 1) * (D * D) =
        r0 * (vd * vb1) / (D * D) * (D * D) - (D * D) := by
      rw [Nat.sub_mul, Nat.one_mul]
    omega
  have hEleK : D * D ≤ r0 * (vd * vb1) := by
    have h9 : 1 * (D * D) ≤ r0 * (vd * vb1) :=
      (Nat.le_div_iff_mul_le hEpos).mp hq
    omega
  have hfinal1 : (C0 - 1) * D * D / (vd * vb1) ≤
      (r0 * (vd * vb1) - 1) / (vd * vb1) := by
    apply Nat.div_le_div_right
    have h9 : (C0 - 1) * D * D = (C0 - 1) * (D * D) := by ring
    omega
  have hfinal2 : (r0 * (vd * vb1) - 1) / (vd * vb1) = r0 - 1 :=
    pred_mul_div hr0pos hKpos
  calc B * vc / D * (D * D / vd) / D * (D * D / vb1) / D ≤
        B * vc / D * (D * D / vd) / D * D / vb1 := hD2
  _ ≤ B * vc / D * D / vd * D / vb1 := hD3
  _ ≤ B * vc / D * D * D / (vd * vb1) := hD4
  _ ≤ (C0 - 1) * D * D / (vd * vb1) := hstep
  _ ≤ (r0 * (vd * vb1) - 1) / (vd * vb1) := hfinal1
  _ = r0 - 1 := hfinal2
  _ < r0 := by omega

theorem liquidation_clamped_repay_lt {vc vd vb B r0 : Nat}
    (hvc : 0 < vc) (hvd : 0 < vd)
    (hclamp : B < liquidation_initial_collateral vc vd vb r0) :
    liquidation_clamped_repay vc vd vb B < r0 := by
  have hD : 0 < DECIMAL_FRACTIONAL := terra_decimal_fractional_pos
  have hvb1 : 0 < DECIMAL_FRACTIONAL + vb := by omega
  unfold liquidation_initial_collateral mul_uint128_by_decimal
    reverse_decimal at hclamp
  unfold liquidation_clamped_repay mul_uint128_by_decimal reverse_decimal
  exact clamped_chain hD hvc hvd hvb1 hclamp

theorem ite_lt_min (m s : Nat) : (if m < s then m else s) = min s m := by
  rcases le_or_lt s m with h | h
  · rw [if_neg (Nat.not_lt.mpr h), Nat.min_eq_left h]
  · rw [if_pos h, Nat.min_eq_right (Nat.le_of_lt h)]

end Terra

/-- Claim C5: `liquidation_compute_amounts` repays the minimum of the sent
amount and `close_factor * total_debt`; seizes
`repay * debt_price * (1 + bonus) / collateral_price` collateral (all
products in the contract's truncating fixed point); when that exceeds the
user's collateral balance it clamps the seized collateral to the full
balance and recomputes the repaid debt as
`balance * collateral_price / (debt_price * (1 + bonus))`; the seized
collateral never exceeds the balance, the repaid debt never exceeds the
sent amount, and the refund is exactly `sent - repaid`. -/
theorem liquidation_compute_amounts_spec :
    ∀ collateral_price debt_price close_factor balance bonus total_debt sent,
      0 < collateral_price → 0 < debt_price →
      Terra.liquidation_compute_amounts collateral_price debt_price
          close_factor balance bonus total_debt sent =
        (if balance < Terra.liquidation_initial_collateral collateral_price
            debt_price bonus
            (Terra.liquidation_initial_repay close_factor total_debt sent) then
          (Terra.liquidation_clamped_repay collateral_price debt_price bonus
            balance, balance,
            sent - Terra.liquidation_clamped_repay collateral_price debt_price
              bonus balance)
        else
          (Terra.liquidation_initial_repay close_factor total_debt sent,
            Terra.liquidation_initial_collateral collateral_price debt_price
              bonus (Terra.liquidation_initial_repay close_factor total_debt
                sent),
            sent - Terra.liquidation_initial_repay close_factor total_debt
              sent)) ∧
      (Terra.liquidation_compute_amounts collateral_price debt_price
        close_factor balance bonus total_debt sent).1 ≤ sent ∧
      (Terra.liquidation_compute_amounts collateral_price debt_price
        close_factor balance bonus total_debt sent).2.1 ≤ balance ∧
      (Terra.liquidation_compute_amounts collateral_price debt_price
          close_factor balance bonus total_debt sent).2.2 +
        (Terra.liquidation_compute_amounts collateral_price debt_price
          close_factor balance bonus total_debt sent).1 = sent := by
  intro vc vd cf B vb debt sent hvc hvd
  have heq : Terra.liquidation_compute_amounts vc vd cf B vb debt sent =
      if B < Terra.liquidation_initial_collateral vc vd vb
          (Terra.liquidation_initial_repay cf debt sent) then
        (Terra.liquidation_clamped_repay vc vd vb B, B,
          sent - Terra.liquidation_clamped_repay vc vd vb B)
      else
        (Terra.liquidation_initial_repay cf debt sent,
          Terra.liquidation_initial_collateral vc vd vb
            (Terra.liquidation_initial_repay cf debt sent),
          sent - Terra.liquidation_initial_repay cf debt sent) := by
    simp only [Terra.liquidation_compute_amounts,
      Terra.liquidation_initial_collateral, Terra.liquidation_clamped_repay,
      Terra.liquidation_initial_repay]
    rw [Terra.ite_lt_min]
  have hrle : Terra.liquidation_initial_repay cf debt sent ≤ sent :=
    Nat.min_le_left _ _
  refine ⟨heq, ?_, ?_, ?_⟩
  · rw [heq]
    split
    · rename_i h
      exact le_trans (Nat.le_of_lt (Terra.liquidation_clamped_repay_lt hvc
        hvd h)) hrle
    · exact hrle
  · rw [heq]
    split
    · exact Nat.le_refl B
    · rename_i h
      exact Nat.not_lt.mp h
  · rw [heq]
    split
    · rename_i h
      exact Nat.sub_add_cancel (le_trans (Nat.le_of_lt
        (Terra.liquidation_clamped_repay_lt hvc hvd h)) hrle)
    · exact Nat.sub_add_cancel hrle

/-- Witness for claim C5, at the specification's own example: collateral
price 2, debt price 1, close factor 0.5, collateral balance 100, bonus 0.1,
total debt 1000, sent 1000: the clamp triggers, giving repay 181, seized
collateral 100, refund 819. -/
theorem liquidation_compute_amounts_spec_witness :
    Terra.liquidation_compute_amounts (2 * 10 ^ 18) (10 ^ 18) (5 * 10 ^ 17)
      100 (10 ^ 17) 1000 1000 = (181, 100, 819) ∧
    (181 : Nat) ≤ 1000 ∧ (100 : Nat) ≤ 100 ∧ (819 : Nat) + 181 = 1000 := by
  have h := liquidation_compute_amounts_spec (2 * 10 ^ 18) (10 ^ 18)
    (5 * 10 ^ 17) 100 (10 ^ 17) 1000 1000 (by decide) (by decide)
  exact ⟨by decide, h.2.1, h.2.2.1, h.2.2.2⟩

namespace Terra

/-- Embedding of the health-factor gate of `execute_withdraw`
(`contract.rs`, lines 379-411), returning `true` when the withdrawal is
rejected (either by the `checked_sub` underflow or by
`InvalidHealthFactorAfterWithdraw`).  The aggregate position values
(`weighted_maintenance_margin_in_uusd`,
`total_collateralized_debt_in_uusd`) and the withdrawn asset's oracle
price, computed by the missing `accounts::get_user_position` module, are
taken as parameters. -/
def execute_withdraw_health_check (asset_as_collateral : Bool)
    (borrowed_assets weighted_maintenance_margin_in_uusd
    total_collateralized_debt_in_uusd withdraw_amount withdraw_asset_price
    maintenance_margin : Nat) : Bool :=
  if asset_as_collateral && (borrowed_assets != 0) then
    let withdraw_amount_in_uusd :=
      mul_uint128_by_decimal withdraw_amount withdraw_asset_price
    let weighted :=
      mul_uint128_by_decimal withdraw_amount_in_uusd maintenance_margin
    if weighted_maintenance_margin_in_uusd < weighted then true
    else
      decide (decimal_quotient
        (weighted_maintenance_margin_in_uusd - weighted)
        total_collateralized_debt_in_uusd < DECIMAL_FRACTIONAL)
  else false

/-- Error cases of the borrow-authorization check of `execute_borrow`. -/
inductive BorrowValidationError
  | amount_exceeds_collateral
  | amount_exceeds_limit
  deriving DecidableEq

/-- Embedding of the borrow-authorization check of `execute_borrow`
(`contract.rs`, lines 788-846).  For a zero uncollateralized limit the loan
is collateralized: the user's position (total debt value and maximum debt
value in uusd, computed by the missing `accounts::get_user_position`
module, taken as parameters) bounds the new total debt.  For a nonzero
limit, the user's descaled existing debt plus the new amount is bounded by
the limit. -/
def execute_borrow_check (uncollateralized_loan_limit total_debt_in_uusd
    max_debt_in_uusd borrow_amount borrow_asset_price debt_amount_scaled
    borrow_index : Nat) : Except BorrowValidationError Unit :=
  if uncollateralized_loan_limit = 0 then
    let borrow_amount_in_uusd :=
      mul_uint128_by_decimal borrow_amount borrow_asset_price
    if max_debt_in_uusd < total_debt_in_uusd + borrow_amount_in_uusd then
      Except.error BorrowValidationError.amount_exceeds_collateral
    else Except.ok ()
  else
    let debt_amount := get_descaled_amount debt_amount_scaled borrow_index
    if uncollateralized_loan_limit < debt_amount + borrow_amount then
      Except.error BorrowValidationError.amount_exceeds_limit
    else Except.ok ()

end Terra

/-- Claim C6: for a user holding the withdrawn asset as collateral with a
nonzero borrowed-assets bitmask and positive collateralized debt value, the
withdrawal is rejected exactly when the health factor recomputed after
subtracting the withdrawn value weighted by the market's maintenance margin
from the weighted maintenance margin is strictly below one. -/
theorem withdraw_health_factor_gating :
    ∀ (borrowed_assets wmm debt amount price mm : Nat),
      borrowed_assets ≠ 0 → 0 < debt →
      (Terra.execute_withdraw_health_check true borrowed_assets wmm debt
          amount price mm = true ↔
        ((wmm - Terra.mul_uint128_by_decimal
            (Terra.mul_uint128_by_decimal amount price) mm : Nat) : ℚ) /
          (debt : ℚ) < 1) := by
  intro ba wmm debt amount price mm hba hdebt
  have hD : 0 < Terra.DECIMAL_FRACTIONAL := Terra.terra_decimal_fractional_pos
  have hcond : (true && (ba != 0)) = true := by
    simp [bne_iff_ne, hba]
  unfold Terra.execute_withdraw_health_check
  rw [hcond]
  simp only [if_true]
  have hq : ((wmm - Terra.mul_uint128_by_decimal
      (Terra.mul_uint128_by_decimal amount price) mm : Nat) : ℚ) /
      (debt : ℚ) < 1 ↔
      wmm - Terra.mul_uint128_by_decimal
        (Terra.mul_uint128_by_decimal amount price) mm < debt := by
    rw [div_lt_one (by exact_mod_cast hdebt)]
    exact_mod_cast Iff.rfl
  rw [hq]
  set x := Terra.mul_uint128_by_decimal
    (Terra.mul_uint128_by_decimal amount price) mm with hx
  by_cases hlt : wmm < x
  · rw [if_pos hlt]
    simp only [true_iff]
    omega
  · rw [if_neg hlt]
    unfold Terra.decimal_quotient
    rw [decide_eq_true_iff]
    rw [Nat.div_lt_iff_lt_mul hdebt]
    constructor
    · intro h
      have h2 : (wmm - x) * Terra.DECIMAL_FRACTIONAL <
          debt * Terra.DECIMAL_FRACTIONAL := by
        calc (wmm - x) * Terra.DECIMAL_FRACTIONAL <
              Terra.DECIMAL_FRACTIONAL * debt := h
        _ = debt * Terra.DECIMAL_FRACTIONAL := Nat.mul_comm _ _
      exact Nat.lt_of_mul_lt_mul_right h2
    · intro h
      calc (wmm - x) * Terra.DECIMAL_FRACTIONAL <
            debt * Terra.DECIMAL_FRACTIONAL :=
            Nat.mul_lt_mul_of_lt_of_le h (Nat.le_refl _) hD
      _ = Terra.DECIMAL_FRACTIONAL * debt := Nat.mul_comm _ _

/-- Witness for claim C6: weighted maintenance margin 600000, collateralized
debt value 600000, withdrawing 10 units at price 1.0 with maintenance
margin 0.6 — the post-withdraw health factor drops below one and the
withdrawal is rejected. -/
theorem withdraw_health_factor_gating_witness :
    (1 : Nat) ≠ 0 ∧ (0 : Nat) < 600000 ∧
    Terra.execute_withdraw_health_check true 1 600000 600000 10 (10 ^ 18)
      (6 * 10 ^ 17) = true ∧
    (Terra.execute_withdraw_health_check true 1 600000 600000 10 (10 ^ 18)
        (6 * 10 ^ 17) = true ↔
      ((600000 - Terra.mul_uint128_by_decimal
          (Terra.mul_uint128_by_decimal 10 (10 ^ 18)) (6 * 10 ^ 17) :
            Nat) : ℚ) / ((600000 : Nat) : ℚ) < 1) :=
  ⟨by decide, by decide, by decide,
    withdraw_health_factor_gating 1 600000 600000 10 (10 ^ 18)
      (6 * 10 ^ 17) (by decide) (by decide)⟩

/-- Claim C7: a collateralized borrow (zero uncollateralized limit) is
rejected exactly when the user's total debt value in uusd plus the borrow
amount times the asset price exceeds the maximum borrowable value; a borrow
against a nonzero uncollateralized limit is rejected exactly when the
existing descaled debt plus the borrow amount exceeds the limit. -/
theorem borrow_limit_gating :
    ∀ (limit total_debt max_debt amount price debt_scaled bIndex : Nat),
      (limit = 0 →
        (Terra.execute_borrow_check limit total_debt max_debt amount price
            debt_scaled bIndex =
          Except.error Terra.BorrowValidationError.amount_exceeds_collateral ↔
          max_debt < total_debt +
            Terra.mul_uint128_by_decimal amount price)) ∧
      (limit ≠ 0 →
        (Terra.execute_borrow_check limit total_debt max_debt amount price
            debt_scaled bIndex =
          Except.error Terra.BorrowValidationError.amount_exceeds_limit ↔
          limit < Terra.get_descaled_amount debt_scaled bIndex + amount)) ∧
      (Terra.execute_borrow_check limit total_debt max_debt amount price
          debt_scaled bIndex = Except.ok () ↔
        ¬ (if limit = 0 then
            max_debt < total_debt + Terra.mul_uint128_by_decimal amount price
          else
            limit < Terra.get_descaled_amount debt_scaled bIndex + amount)) := by
  intro limit total_debt max_debt amount price debt_scaled bIndex
  unfold Terra.execute_borrow_check
  by_cases hl : limit = 0
  · simp only [hl, if_true, if_pos rfl]
    by_cases hc : max_debt < total_debt +
        Terra.mul_uint128_by_decimal amount price
    · simp [hc]
    · simp [hc]
  · simp only [hl, if_false, if_neg hl]
    by_cases hc : limit < Terra.get_descaled_amount debt_scaled bIndex + amount
    · simp [hc]
    · simp [hc]

/-- Witness for claim C7: a collateralized borrow pushing debt value from 50
to 110 against a cap of 100 is rejected; an uncollateralized borrow pushing
debt from 30 to 110 against a limit of 100 is rejected. -/
theorem borrow_limit_gating_witness :
    (Terra.execute_borrow_check 0 50 100 60 (10 ^ 18) 0 (10 ^ 18) =
        Except.error Terra.BorrowValidationError.amount_exceeds_collateral ↔
      (100 : Nat) < 50 + Terra.mul_uint128_by_decimal 60 (10 ^ 18)) ∧
    (Terra.execute_borrow_check 100 0 0 80 (10 ^ 18) (3 * 10 ^ 7)
        (10 ^ 18) =
        Except.error Terra.BorrowValidationError.amount_exceeds_limit ↔
      (100 : Nat) < Terra.get_descaled_amount (3 * 10 ^ 7) (10 ^ 18) + 80) ∧
    Terra.execute_borrow_check 0 50 100 60 (10 ^ 18) 0 (10 ^ 18) =
      Except.error Terra.BorrowValidationError.amount_exceeds_collateral ∧
    Terra.execute_borrow_check 100 0 0 80 (10 ^ 18) (3 * 10 ^ 7) (10 ^ 18) =
      Except.error Terra.BorrowValidationError.amount_exceeds_limit :=
  ⟨(borrow_limit_gating 0 50 100 60 (10 ^ 18) 0 (10 ^ 18)).1 rfl,
    ((borrow_limit_gating 100 0 0 80 (10 ^ 18) (3 * 10 ^ 7)
      (10 ^ 18)).2).1 (by decide),
    by rfl, by rfl⟩

namespace Terra

/-- The per-user scaled-debt records of one market (user `i` owns entry
`i`) together with the market's `debt_total_scaled`. -/
structure LedgerState where
  debts : List Nat
  debt_total_scaled : Nat
  deriving DecidableEq

/-- The debt-relevant operations of the red bank, excluding liquidation.
Deposits and withdrawals carry no data because they touch no debt record.
Borrow and repay carry the underlying amount and the updated borrow index
at which the contract scales it. -/
inductive LedgerOp
  | deposit
  | withdraw
  | borrow (user : Nat) (amount : Nat) (borrow_index : Nat)
  | repay (user : Nat) (amount : Nat) (borrow_index : Nat)

/-- Debt effect of one operation on a market's ledger.
`deposit`/`withdraw` (lines 642-731 and 309-470 of `contract.rs`) leave
every debt record and `debt_total_scaled` unchanged.  `borrow` (lines
869-900) adds the identical scaled amount to the user's record and to
`debt_total_scaled`.  `repay` (lines 938-1008) rejects a zero outstanding
debt, caps the scaled repayment at the outstanding debt, subtracts the
identical capped amount from the user's record and from
`debt_total_scaled`, and rejects when the capped amount exceeds
`debt_total_scaled`. -/
def ledger_step (st : LedgerState) : LedgerOp → Option LedgerState
  | LedgerOp.deposit => some st
  | LedgerOp.withdraw => some st
  | LedgerOp.borrow user amount bIndex =>
      match st.debts.get? user with
      | none => none
      | some d =>
          let s := get_scaled_amount amount bIndex
          some ⟨st.debts.set user (d + s), st.debt_total_scaled + s⟩
  | LedgerOp.repay user amount bIndex =>
      match st.debts.get? user with
      | none => none
      | some d =>
          if d = 0 then none
          else
            let s0 := get_scaled_amount amount bIndex
            let s := if d < s0 then d else s0
            if st.debt_total_scaled < s then none
            else some ⟨st.debts.set user (d - s), st.debt_total_scaled - s⟩

/-- Runs a sequence of operations, aborting on the first rejection. -/
def ledger_run (st : LedgerState) : List LedgerOp → Option LedgerState
  | [] => some st
  | op :: rest =>
      match ledger_step st op with
      | none => none
      | some st2 => ledger_run st2 rest

theorem get_le_sum : ∀ (l : List Nat) (i d : Nat), l.get? i = some d →
    d ≤ l.sum := by
  intro l
  induction l with
  | nil => intro i d h; simp at h
  | cons x xs ih =>
      intro i d h
      cases i with
      | zero =>
          simp only [List.get?] at h
          obtain rfl := Option.some_inj.mp h
          simp [List.sum_cons]
      | succ j =>
          simp only [List.get?] at h
          have h2 : d ≤ xs.sum := ih j d h
          simp [List.sum_cons]
          omega

theorem sum_set_of_get : ∀ (l : List Nat) (i d v : Nat),
    l.get? i = some d → (l.set i v).sum + d = l.sum + v := by
  intro l
  induction l with
  | nil => intro i d v h; simp at h
  | cons x xs ih =>
      intro i d v h
      cases i with
      | zero =>
          simp only [List.get?] at h
          obtain rfl := Option.some_inj.mp h
          simp [List.sum_cons]
          omega
      | succ j =>
          simp only [List.get?] at h
          have h2 := ih j d v h
          simp [List.sum_cons]
          omega

theorem ledger_step_invariant {st st2 : LedgerState} {op : LedgerOp}
    (hinv : st.debt_total_scaled = st.debts.sum)
    (h : ledger_step st op = some st2) :
    st2.debt_total_scaled = st2.debts.sum := by
  cases op with
  | deposit =>
      obtain rfl := Option.some_inj.mp h
      exact hinv
  | withdraw =>
      obtain rfl := Option.some_inj.mp h
      exact hinv
  | borrow user amount bIndex =>
      simp only [ledger_step] at h
      split at h
      · exact absurd h (by simp)
      · rename_i d hg
        obtain rfl := (Option.some_inj.mp h).symm
        have hs := sum_set_of_get st.debts user d
          (d + get_scaled_amount amount bIndex) hg
        dsimp only
        omega
  | repay user amount bIndex =>
      simp only [ledger_step] at h
      split at h
      · exact absurd h (by simp)
      · rename_i d hg
        split at h
        · exact absurd h (by simp)
        · rename_i hd0
          split at h
          · rename_i hcap
            split at h
            · exact absurd h (by simp)
            · rename_i hguard
              obtain rfl := (Option.some_inj.mp h).symm
              have hdle : d ≤ st.debts.sum := get_le_sum st.debts user d hg
              have hs := sum_set_of_get st.debts user d (d - d) hg
              dsimp only
              omega
          · rename_i hcap
            split at h
            · exact absurd h (by simp)
            · rename_i hguard
              obtain rfl := (Option.some_inj.mp h).symm
              have hdle : d ≤ st.debts.sum := get_le_sum st.debts user d hg
              have hs := sum_set_of_get st.debts user d
                (d - get_scaled_amount amount bIndex) hg
              dsimp only
              omega

theorem ledger_run_invariant : ∀ (ops : List LedgerOp)
    (st st2 : LedgerState),
    st.debt_total_scaled = st.debts.sum →
    ledger_run st ops = some st2 →
    st2.debt_total_scaled = st2.debts.sum := by
  intro ops
  induction ops with
  | nil =>
      intro st st2 hinv h
      obtain rfl := Option.some_inj.mp h
      exact hinv
  | cons op rest ih =>
      intro st st2 hinv h
      simp only [ledger_run] at h
      split at h
      · exact absurd h (by simp)
      · rename_i st3 hstep
        exact ih st3 st2 (ledger_step_invariant hinv hstep) h

theorem div_add_div_le (a b c : Nat) : a / c + b / c ≤ (a + b) / c := by
  rcases Nat.eq_zero_or_pos c with rfl | hc
  · simp
  · rw [Nat.le_div_iff_mul_le hc, Nat.add_mul]
    have h1 : a / c * c ≤ a := Nat.div_mul_le_self _ _
    have h2 : b / c * c ≤ b := Nat.div_mul_le_self _ _
    omega

theorem add_div_le_succ (a b c : Nat) : (a + b) / c ≤ a / c + b / c + 1 := by
  rcases Nat.eq_zero_or_pos c with rfl | hc
  · simp
  · have h1 : a < (a / c + 1) * c :=
      (Nat.div_lt_iff_lt_mul hc).mp (Nat.lt_succ_self _)
    have h2 : b < (b / c + 1) * c :=
      (Nat.div_lt_iff_lt_mul hc).mp (Nat.lt_succ_self _)
    have heq : (a / c + b / c + 2) * c = (a / c + 1) * c + (b / c + 1) * c :=
      by ring
    have h3 : (a + b) / c < a / c + b / c + 2 :=
      (Nat.div_lt_iff_lt_mul hc).mpr (by omega)
    omega

theorem descaled_eq_div (d index : Nat) :
    get_descaled_amount d index =
      d * index / (DECIMAL_FRACTIONAL * SCALING_FACTOR) := by
  unfold get_descaled_amount
  exact Nat.div_div_eq_div_mul _ _ _

theorem sum_descaled_bounds (index : Nat) : ∀ (l : List Nat),
    (l.map (fun d => get_descaled_amount d index)).sum ≤
      get_descaled_amount l.sum index ∧
    get_descaled_amount l.sum index ≤
      (l.map (fun d => get_descaled_amount d index)).sum + l.length := by
  intro l
  induction l with
  | nil => simp [get_descaled_amount]
  | cons x xs ih =>
      obtain ⟨ih1, ih2⟩ := ih
      rw [descaled_eq_div] at ih1 ih2 ⊢
      simp only [List.map_cons, List.sum_cons, List.length_cons,
        descaled_eq_div]
      have hdist : (x + xs.sum) * index = x * index + xs.sum * index := by
        ring
      constructor
      · calc x * index / (DECIMAL_FRACTIONAL * SCALING_FACTOR) +
              (xs.map (fun d => d * index /
                (DECIMAL_FRACTIONAL * SCALING_FACTOR))).sum ≤
              x * index / (DECIMAL_FRACTIONAL * SCALING_FACTOR) +
              xs.sum * index / (DECIMAL_FRACTIONAL * SCALING_FACTOR) := by
                have := ih1
                simp only [descaled_eq_div] at this
                omega
        _ ≤ (x * index + xs.sum * index) /
              (DECIMAL_FRACTIONAL * SCALING_FACTOR) := div_add_div_le _ _ _
        _ = (x + xs.sum) * index / (DECIMAL_FRACTIONAL * SCALING_FACTOR) :=
              by rw [hdist]
      · calc (x + xs.sum) * index / (DECIMAL_FRACTIONAL * SCALING_FACTOR) =
              (x * index + xs.sum * index) /
                (DECIMAL_FRACTIONAL * SCALING_FACTOR) := by rw [hdist]
        _ ≤ x * index / (DECIMAL_FRACTIONAL * SCALING_FACTOR) +
              xs.sum * index / (DECIMAL_FRACTIONAL * SCALING_FACTOR) + 1 :=
              add_div_le_succ _ _ _
        _ ≤ x * index / (DECIMAL_FRACTIONAL * SCALING_FACTOR) +
              ((xs.map (fun d => d * index /
                (DECIMAL_FRACTIONAL * SCALING_FACTOR))).sum + xs.length) +
              1 := by
                have := ih2
                simp only [descaled_eq_div] at this
                omega
        _ = x * index / (DECIMAL_FRACTIONAL * SCALING_FACTOR) +
              (xs.map (fun d => d * index /
                (DECIMAL_FRACTIONAL * SCALING_FACTOR))).sum +
              (xs.length + 1) := by omega

end Terra

/-- Claim C8: starting from any ledger in which `debt_total_scaled` equals
the sum of the users' scaled debts, every successful sequence of deposit,
withdraw, borrow and repay operations (no liquidation) preserves that
equality, because borrow adds the identical scaled amount to both sides and
repay subtracts the identical capped scaled amount from both; moreover
descaling the total at any index agrees with the sum of the individually
descaled debts within one unit per user. -/
theorem debt_ledger_conservation :
    (∀ (ops : List Terra.LedgerOp) (st st2 : Terra.LedgerState),
      st.debt_total_scaled = st.debts.sum →
      Terra.ledger_run st ops = some st2 →
      st2.debt_total_scaled = st2.debts.sum) ∧
    (∀ (l : List Nat) (index : Nat),
      (l.map (fun d => Terra.get_descaled_amount d index)).sum ≤
        Terra.get_descaled_amount l.sum index ∧
      Terra.get_descaled_amount l.sum index ≤
        (l.map (fun d => Terra.get_descaled_amount d index)).sum +
          l.length) :=
  ⟨fun ops st st2 => Terra.ledger_run_invariant ops st st2,
    fun l index => Terra.sum_descaled_bounds index l⟩

/-- Witness for claim C8: two users starting at scaled debts `[0, 5e6]`
with a matching total, after a borrow of 100, a repay of 30 and a deposit
at index 1.0. -/
theorem debt_ledger_conservation_witness :
    Terra.ledger_run ⟨[0, 5 * 10 ^ 6], 5 * 10 ^ 6⟩
      [Terra.LedgerOp.borrow 0 100 (10 ^ 18),
        Terra.LedgerOp.repay 0 30 (10 ^ 18),
        Terra.LedgerOp.deposit] =
      some ⟨[7 * 10 ^ 7, 5 * 10 ^ 6], 75 * 10 ^ 6⟩ ∧
    (⟨[7 * 10 ^ 7, 5 * 10 ^ 6], 75 * 10 ^ 6⟩ :
      Terra.LedgerState).debt_total_scaled =
      (⟨[7 * 10 ^ 7, 5 * 10 ^ 6], 75 * 10 ^ 6⟩ :
        Terra.LedgerState).debts.sum :=
  ⟨by decide,
    debt_ledger_conservation.1
      [Terra.LedgerOp.borrow 0 100 (10 ^ 18),
        Terra.LedgerOp.repay 0 30 (10 ^ 18),
        Terra.LedgerOp.deposit]
      ⟨[0, 5 * 10 ^ 6], 5 * 10 ^ 6⟩
      ⟨[7 * 10 ^ 7, 5 * 10 ^ 6], 75 * 10 ^ 6⟩ (by decide) (by decide)⟩

namespace Terra

/-- Result of the repayment core of `execute_repay`: the user's remaining
scaled debt, the market's remaining scaled total, the refunded amount, the
flag for clearing the user's borrowed bit, and the `liquidity_taken` value
passed on to `update_interest_rates`. -/
structure RepayOutcome where
  debt_amount_scaled : Nat
  debt_total_scaled : Nat
  refund_amount : Nat
  debt_cleared : Bool
  liquidity_taken : Nat
  deriving DecidableEq

/-- Embedding of the repayment core of `execute_repay` (`contract.rs`,
lines 969-1031), after interest accrual, parametrized by the updated borrow
index: the scaled repayment is capped at the outstanding scaled debt, the
capped excess is refunded descaled at the updated index, the operation is
rejected (`CannotRepayMoreThanDebt`) when the capped scaled repayment
exceeds the market's `debt_total_scaled`, the borrowed bit is cleared when
the remaining debt is exactly zero, and `update_interest_rates` is invoked
with `Uint128::zero()` as the liquidity taken (`contract.rs`, line
1015). -/
def execute_repay_core (debt_amount_scaled debt_total_scaled borrow_index
    repay_amount : Nat) : Option RepayOutcome :=
  let repay_amount_scaled0 := get_scaled_amount repay_amount borrow_index
  let refund_amount :=
    if debt_amount_scaled < repay_amount_scaled0 then
      get_descaled_amount (repay_amount_scaled0 - debt_amount_scaled)
        borrow_index
    else 0
  let repay_amount_scaled :=
    if debt_amount_scaled < repay_amount_scaled0 then debt_amount_scaled
    else repay_amount_scaled0
  if debt_total_scaled < repay_amount_scaled then none
  else some ⟨debt_amount_scaled - repay_amount_scaled,
    debt_total_scaled - repay_amount_scaled, refund_amount,
    debt_amount_scaled - repay_amount_scaled == 0, 0⟩

/-- Modelled from the spec: the available-liquidity computation of
`update_interest_rates` (section 4.4, `update_rates`): the contract's
current asset balance minus the liquidity about to leave, failing when the
amount taken exceeds the balance. -/
def update_rates_available_liquidity (contract_balance liquidity_taken :
    Nat) : Option Nat :=
  if contract_balance < liquidity_taken then none
  else some (contract_balance - liquidity_taken)

end Terra

/-- Claim C9 (counterexample): repaying 150 against an outstanding scaled
debt of `10^8` (100 underlying) at index 1.0 refunds 50, yet
`execute_repay_core` passes `liquidity_taken = 0` to the interest-rate
update, so with a contract balance of 1150 (which already contains the
sent 150) the available liquidity used for the utilization rate is the full
1150 — the refunded excess is not excluded, contradicting the claim that
only the real (non-refunded) amount counts as liquidity added. -/
theorem repay_refund_not_excluded_counterexample :
    Terra.execute_repay_core (10 ^ 8) (2 * 10 ^ 8) (10 ^ 18) 150 =
      some ⟨0, 10 ^ 8, 50, true, 0⟩ ∧
    Terra.update_rates_available_liquidity 1150 0 = some 1150 ∧
    ¬ Terra.update_rates_available_liquidity 1150 0 = some (1150 - 50) :=
  ⟨by decide, by decide, by decide⟩

/-- Claim C9 (amended): for every repay whose scaled repay amount exceeds
the outstanding scaled debt, `execute_repay_core` caps the scaled repayment
at the outstanding debt (leaving the debt record exactly zero and clearing
the borrowed bit), refunds the excess descaled at the updated borrow index,
rejects exactly when the capped scaled repayment exceeds the market's
`debt_total_scaled`, and then calls the interest-rate update with zero
liquidity taken, so the refunded excess (already part of the contract
balance) is *included* in the available liquidity used for the utilization
rate. -/
theorem repay_excess_capped_and_refunded :
    ∀ (debt total index amount : Nat),
      debt < Terra.get_scaled_amount amount index →
      (Terra.execute_repay_core debt total index amount = none ↔
        total < debt) ∧
      (debt ≤ total →
        Terra.execute_repay_core debt total index amount =
          some ⟨0, total - debt,
            Terra.get_descaled_amount
              (Terra.get_scaled_amount amount index - debt) index,
            true, 0⟩) := by
  intro debt total index amount hexcess
  simp only [Terra.execute_repay_core]
  rw [if_pos hexcess, if_pos hexcess]
  constructor
  · constructor
    · intro h
      by_cases hg : total < debt
      · exact hg
      · rw [if_neg hg] at h
        exact absurd h (by simp)
    · intro hg
      rw [if_pos hg]
  · intro hle
    rw [if_neg (Nat.not_lt.mpr hle)]
    have hz : debt - debt = 0 := Nat.sub_self debt
    rw [hz]
    rfl

/-- Witness for the amended claim C9: repaying 150 against outstanding
scaled debt `10^8` (100 underlying) with market total `2 * 10^8` at index
1.0. -/
theorem repay_excess_capped_and_refunded_witness :
    (10 ^ 8 : Nat) < Terra.get_scaled_amount 150 (10 ^ 18) ∧
    (10 ^ 8 : Nat) ≤ 2 * 10 ^ 8 ∧
    Terra.execute_repay_core (10 ^ 8) (2 * 10 ^ 8) (10 ^ 18) 150 =
      some ⟨0, 2 * 10 ^ 8 - 10 ^ 8,
        Terra.get_descaled_amount
          (Terra.get_scaled_amount 150 (10 ^ 18) - 10 ^ 8) (10 ^ 18),
        true, 0⟩ :=
  ⟨by decide, by decide,
    (repay_excess_capped_and_refunded (10 ^ 8) (2 * 10 ^ 8) (10 ^ 18) 150
      (by decide)).2 (by decide)⟩
